import Mathlib

set_option linter.unusedVariables false

/-! Shallow embedding of the sales-dashboard pipeline of src/app.py
    (tablero-ventas-2025): the data model, the value-parsing step, the
    month/salesperson filtering, the snapshot reduction, the target matching
    and the KPI aggregation, together with theorems settling the spec's
    claims about them. -/

/-- A calendar date, as produced by date parsing. -/
structure Date where
  year : Nat
  month : Nat
  day : Nat
deriving DecidableEq

/-- One row of the Registro_Semanal table after the formatting step of
    src/app.py lines 43-47: Fecha_Reporte already parsed (abstracted to a
    Nat time key; rows whose date failed to parse were already dropped by
    dropna) and Valor already numeric. -/
structure Row where
  fecha : Nat
  mes : String
  cliente : String
  vendedor : String
  estado : String
  fase : String
  valor : ℚ
deriving DecidableEq

/-- One row of the Metas table read at src/app.py line 23. -/
structure MetaRow where
  mes : String
  vendedor : String
  metaTotal : ℚ
deriving DecidableEq

/-- Numeric value of a list of decimal digit characters. -/
def natOfDigits (cs : List Char) : Nat :=
  cs.foldl (fun n c => n * 10 + (c.toNat - 48)) 0

/-- Model of pandas.to_numeric(x, errors="coerce") on one string cell, as
    called at src/app.py line 44: after trimming spaces, parse an optional
    sign, an integer part and at most one decimal point; any other character
    (currency symbols, thousands separators, letters, a second dot) coerces
    the whole cell to none (NaN). Line 44 strips no symbols or separators
    before parsing. -/
def to_numeric_str (s : String) : Option ℚ :=
  let cs := ((s.toList.dropWhile (fun c => c = ' ')).reverse.dropWhile
      (fun c => c = ' ')).reverse
  let signAndRest : Bool × List Char :=
    match cs with
    | '-' :: rest => (true, rest)
    | '+' :: rest => (false, rest)
    | _ => (false, cs)
  let neg := signAndRest.1
  let body := signAndRest.2
  let intPart := body.takeWhile Char.isDigit
  let rest := body.dropWhile Char.isDigit
  let mag : Option ℚ :=
    match rest with
    | [] => if intPart.isEmpty then none else some (natOfDigits intPart : ℚ)
    | '.' :: frac =>
        if frac.all Char.isDigit && !(intPart.isEmpty && frac.isEmpty) then
          some ((natOfDigits intPart : ℚ) +
            (natOfDigits frac : ℚ) / ((10 : ℚ) ^ frac.length))
        else none
    | _ => none
  match mag with
  | none => none
  | some q => some (if neg then -q else q)

/-- A cell of the Valor column as read from the sheet: either already
    numeric or free text. -/
inductive CellValue where
  | num (q : ℚ)
  | str (s : String)
deriving DecidableEq

/-- Model of src/app.py line 44, pd.to_numeric(..., errors="coerce").fillna(0)
    on one cell: numbers pass through unchanged, strings are parsed, and a
    failed parse becomes NaN and then 0. -/
def normalize_currency (v : CellValue) : ℚ :=
  match v with
  | .num q => q
  | .str s => (to_numeric_str s).getD 0

/-- Splits a character list on the slash character. -/
def splitSlash : List Char → List (List Char)
  | [] => [[]]
  | c :: rest =>
      let r := splitSlash rest
      if c = '/' then [] :: r
      else
        match r with
        | [] => [[c]]
        | g :: gs => (c :: g) :: gs

/-- The numeric value of one date field, or none when the field is empty or
    not all digits. -/
def fieldNat (cs : List Char) : Option Nat :=
  if cs.isEmpty then none
  else if cs.all Char.isDigit then some (natOfDigits cs) else none

/-- Model of pandas.to_datetime(..., errors="coerce") as called at
    src/app.py line 43, restricted to strings of the form "a/b/y". No
    dayfirst argument is passed at line 43, so pandas (dateutil) reads the
    FIRST slash field as the month; only when that field cannot be a month
    (greater than 12) does it fall back to reading it as the day.
    Unparsable input coerces to none (and the row is dropped at line 47). -/
def normalize_date (s : String) : Option Date :=
  match splitSlash s.toList with
  | [f1, f2, f3] =>
      match fieldNat f1, fieldNat f2, fieldNat f3 with
      | some a, some b, some y =>
          if 1 ≤ a ∧ a ≤ 12 ∧ 1 ≤ b ∧ b ≤ 31 then some ⟨y, a, b⟩
          else if 1 ≤ b ∧ b ≤ 12 ∧ 1 ≤ a ∧ a ≤ 31 then some ⟨y, b, a⟩
          else none
      | _, _, _ => none
  | _ => none

/-- Line 77 of src/app.py: filter the registry to the selected month. -/
def df_mes (registros : List Row) (mesSel : String) : List Row :=
  registros.filter (fun r => r.mes == mesSel)

/-- Line 85 of src/app.py: the most recent report date among the month's
    rows (df_mes["Fecha_Reporte"].max()). -/
def fecha_maxima (rows : List Row) : Nat :=
  rows.foldl (fun acc r => max acc r.fecha) 0

/-- Line 86 of src/app.py: keep only the rows carrying the latest report
    date of the whole filtered set. -/
def foto_reciente (rows : List Row) : List Row :=
  rows.filter (fun r => r.fecha == fecha_maxima rows)

/-- Lines 85-90 of src/app.py: the current snapshot for the selection —
    first the rows of the month's maximum report date, then (only when a
    specific salesperson is selected) the rows of that salesperson. -/
def df_actual (registros : List Row) (mesSel vendedorSel : String) : List Row :=
  let da := foto_reciente (df_mes registros mesSel)
  if vendedorSel == "Todos" then da
  else da.filter (fun r => r.vendedor == vendedorSel)

/-- Lines 94-104 of src/app.py: the target total for the selection. For a
    specific salesperson, the Metas rows matching both the month and the
    salesperson are summed when any exist, else 0; for "Todos", all Metas
    rows of the month are summed. -/
def meta_total (metas : List MetaRow) (mesSel vendedorSel : String) : ℚ :=
  if vendedorSel != "Todos" then
    let meta_filtrada := metas.filter
      (fun m => m.mes == mesSel && m.vendedor == vendedorSel)
    if !meta_filtrada.isEmpty then (meta_filtrada.map MetaRow.metaTotal).sum
    else 0
  else ((metas.filter (fun m => m.mes == mesSel)).map MetaRow.metaTotal).sum

/-- Sum of the Valor column of a set of rows. -/
def sumValor (rows : List Row) : ℚ := (rows.map Row.valor).sum

/-- Line 107 of src/app.py. -/
def total_proyectado (registros : List Row) (mesSel vendedorSel : String) : ℚ :=
  sumValor (df_actual registros mesSel vendedorSel)

/-- Line 110 of src/app.py: exact-equality filter on Estado. -/
def total_op (registros : List Row) (mesSel vendedorSel : String) : ℚ :=
  sumValor ((df_actual registros mesSel vendedorSel).filter
    (fun r => r.estado == "OP Emitida"))

/-- Line 111 of src/app.py: exact-equality filter on Estado. -/
def total_pendiente (registros : List Row) (mesSel vendedorSel : String) : ℚ :=
  sumValor ((df_actual registros mesSel vendedorSel).filter
    (fun r => r.estado == "Pendiente OP"))

/-- Line 112 of src/app.py: exact-equality filter on Estado. -/
def total_pipeline (registros : List Row) (mesSel vendedorSel : String) : ℚ :=
  sumValor ((df_actual registros mesSel vendedorSel).filter
    (fun r => r.estado == "Pipeline"))

/-- Line 115 of src/app.py: the attainment percentage, guarded against a
    non-positive target. -/
def cumplimiento (tp mt : ℚ) : ℚ := if mt > 0 then tp / mt * 100 else 0

/-- The attainment figure the dashboard shows for a selection. -/
def cumplimiento_calc (registros : List Row) (metas : List MetaRow)
    (mesSel vendedorSel : String) : ℚ :=
  cumplimiento (total_proyectado registros mesSel vendedorSel)
    (meta_total metas mesSel vendedorSel)

/-- The closed status taxonomy of the spec. -/
inductive ClassifiedStatus where
  | Closed
  | Pending
  | InPipeline
  | Unclassified
deriving DecidableEq

/-- The classification that the filters at src/app.py lines 110-112 induce
    on a raw Estado string: case-sensitive exact equality against the three
    labels (which are pairwise distinct, so at most one filter matches); any
    other text matches no filter and lands in no bucket. -/
def classify (s : String) : ClassifiedStatus :=
  if s = "OP Emitida" then .Closed
  else if s = "Pendiente OP" then .Pending
  else if s = "Pipeline" then .InPipeline
  else .Unclassified

/-- Outcome of one report render. fatal models the st.error + st.stop paths
    of src/app.py (lines 33-35, 38-39, 50-52); empty_state models the
    st.info + st.stop path for a month with no rows (lines 79-81); report
    carries the KPIs and the detail rows of a successful render. -/
inductive ReportResult where
  | fatal (msg : String)
  | empty_state (msg : String)
  | report (metaT totalProy totalOp totalPend totalPipe cumpl : ℚ)
      (detalle : List Row)
deriving DecidableEq

/-- Lines 77-115 of src/app.py as one function of the parsed inputs and the
    two sidebar selections. -/
def run_report (registros : List Row) (metas : List MetaRow)
    (mesSel vendedorSel : String) : ReportResult :=
  let dm := df_mes registros mesSel
  if dm.isEmpty then
    .empty_state ("No hay registros para el mes " ++ mesSel)
  else
    .report (meta_total metas mesSel vendedorSel)
      (total_proyectado registros mesSel vendedorSel)
      (total_op registros mesSel vendedorSel)
      (total_pendiente registros mesSel vendedorSel)
      (total_pipeline registros mesSel vendedorSel)
      (cumplimiento_calc registros metas mesSel vendedorSel)
      (df_actual registros mesSel vendedorSel)

/-- The two snapshot-reduction policies named by the spec. -/
inductive Policy where
  | LatestPerEntity
  | LatestReportDateOnly
deriving DecidableEq

/-- The entity key the reducer groups by: the (client, salesperson) pair. -/
def entity_key (r : Row) : String × String := (r.cliente, r.vendedor)

/-- Keeps the later (by report date, ties going to the newer row) of an
    accumulated row and a new row. -/
def laterRow (acc : Option Row) (r : Row) : Option Row :=
  match acc with
  | none => some r
  | some a => if a.fecha ≤ r.fecha then some r else some a

/-- Modelled from the spec: the per-entity half of the LatestPerEntity
    reduction policy, which src/app.py does not contain (the app hardcodes
    the latest-report-date policy at lines 85-86). For one entity key, the
    observation with the greatest report date, later input rows winning
    ties. -/
def latestForEntity (obs : List Row) (e : String × String) : Option Row :=
  (obs.filter (fun r => decide (entity_key r = e))).foldl laterRow none

/-- The snapshot reducer. The LatestReportDateOnly branch is lines 85-86 of
    src/app.py; the LatestPerEntity branch is modelled from the spec: one
    output row per distinct entity key present in the input, each being that
    entity's latest observation. -/
def reduce (p : Policy) (obs : List Row) : List Row :=
  match p with
  | .LatestReportDateOnly => foto_reciente obs
  | .LatestPerEntity => ((obs.map entity_key).dedup).filterMap (latestForEntity obs)

/-- A sample observation: client A, salesperson Ana, reported in week 1. -/
def fila_a : Row := ⟨1, "Ene", "A", "Ana", "Pipeline", "f", 5⟩

/-- A sample observation: client B, salesperson Juan, reported in week 3. -/
def fila_b : Row := ⟨3, "Ene", "B", "Juan", "Pipeline", "f", 7⟩

/-- A sample observation with an unrecognized status and a negative value. -/
def fila_neg : Row := ⟨1, "Ene", "A", "Ana", "xyz", "f", -1⟩

/-- A sample target row. -/
def meta_a : MetaRow := ⟨"Ene", "Ana", 50⟩

/-- The fold that fecha_maxima runs (line 85 of src/app.py). -/
def maxStep (acc : Nat) (r : Row) : Nat := max acc r.fecha

theorem foldl_maxStep_init_le (l : List Row) : ∀ a : Nat, a ≤ l.foldl maxStep a := by
  induction l with
  | nil => intro a; exact le_refl a
  | cons x xs ih =>
      intro a
      exact le_trans (le_max_left a x.fecha) (ih (max a x.fecha))

theorem mem_le_foldl_maxStep (l : List Row) :
    ∀ (a : Nat) (r : Row), r ∈ l → r.fecha ≤ l.foldl maxStep a := by
  induction l with
  | nil => intro a r hr; cases hr
  | cons x xs ih =>
      intro a r hr
      rcases List.mem_cons.mp hr with h | h
      · subst h
        exact le_trans (le_max_right a r.fecha) (foldl_maxStep_init_le xs (max a r.fecha))
      · exact ih (max a x.fecha) r h

theorem foldl_maxStep_cases (l : List Row) :
    ∀ a : Nat, l.foldl maxStep a = a ∨ ∃ r ∈ l, l.foldl maxStep a = r.fecha := by
  induction l with
  | nil => intro a; exact Or.inl rfl
  | cons x xs ih =>
      intro a
      have hstep : List.foldl maxStep a (x :: xs) = List.foldl maxStep (max a x.fecha) xs := rfl
      rcases ih (max a x.fecha) with h | ⟨r, hr, he⟩
      · rcases max_choice a x.fecha with h2 | h2
        · left
          rw [hstep, h, h2]
        · right
          refine ⟨x, List.mem_cons_self x xs, ?_⟩
          rw [hstep, h, h2]
      · right
        refine ⟨r, List.mem_cons_of_mem x hr, ?_⟩
        rw [hstep]
        exact he

theorem fecha_maxima_eq_foldl (l : List Row) : fecha_maxima l = l.foldl maxStep 0 := rfl

theorem le_fecha_maxima (l : List Row) (r : Row) (hr : r ∈ l) : r.fecha ≤ fecha_maxima l :=
  mem_le_foldl_maxStep l 0 r hr

theorem exists_fecha_maxima (l : List Row) (h : l ≠ []) :
    ∃ r ∈ l, r.fecha = fecha_maxima l := by
  rcases foldl_maxStep_cases l 0 with h0 | ⟨r, hr, he⟩
  · match l, h with
    | x :: xs, _ =>
        refine ⟨x, List.mem_cons_self x xs, ?_⟩
        have hle := le_fecha_maxima (x :: xs) x (List.mem_cons_self x xs)
        have : fecha_maxima (x :: xs) = 0 := h0
        omega
  · exact ⟨r, hr, he.symm⟩

theorem laterRow_some_cases (a x : Row) :
    laterRow (some a) x = some x ∨ laterRow (some a) x = some a := by
  unfold laterRow
  by_cases h : a.fecha ≤ x.fecha
  · left
    simp [h]
  · right
    simp [h]

theorem foldl_laterRow_some (l : List Row) :
    ∀ a : Row, ∃ b, l.foldl laterRow (some a) = some b ∧ (b = a ∨ b ∈ l) := by
  induction l with
  | nil => intro a; exact ⟨a, rfl, Or.inl rfl⟩
  | cons x xs ih =>
      intro a
      have hstep : List.foldl laterRow (some a) (x :: xs) =
          List.foldl laterRow (laterRow (some a) x) xs := rfl
      rcases laterRow_some_cases a x with h | h
      · obtain ⟨b, hb, hmem⟩ := ih x
        refine ⟨b, ?_, ?_⟩
        · rw [hstep, h]; exact hb
        · rcases hmem with h2 | h2
          · exact Or.inr (h2 ▸ List.mem_cons_self x xs)
          · exact Or.inr (List.mem_cons_of_mem x h2)
      · obtain ⟨b, hb, hmem⟩ := ih a
        refine ⟨b, ?_, ?_⟩
        · rw [hstep, h]; exact hb
        · rcases hmem with h2 | h2
          · exact Or.inl h2
          · exact Or.inr (List.mem_cons_of_mem x h2)

theorem foldl_laterRow_none (l : List Row) (r : Row)
    (h : l.foldl laterRow none = some r) : r ∈ l := by
  match l with
  | [] => cases h
  | x :: xs =>
      have hstep : List.foldl laterRow none (x :: xs) =
          List.foldl laterRow (some x) xs := rfl
      obtain ⟨b, hb, hmem⟩ := foldl_laterRow_some xs x
      rw [hstep, hb] at h
      cases h
      rcases hmem with h2 | h2
      · exact h2 ▸ List.mem_cons_self x xs
      · exact List.mem_cons_of_mem x h2

theorem foldl_laterRow_nonempty (l : List Row) (h : l ≠ []) :
    ∃ r, l.foldl laterRow none = some r := by
  match l, h with
  | x :: xs, _ =>
      obtain ⟨b, hb, _⟩ := foldl_laterRow_some xs x
      exact ⟨b, hb⟩

theorem latestForEntity_some (obs : List Row) (e : String × String) (r : Row)
    (h : latestForEntity obs e = some r) : r ∈ obs ∧ entity_key r = e := by
  unfold latestForEntity at h
  have hmem := foldl_laterRow_none _ r h
  have := List.mem_filter.mp hmem
  exact ⟨this.1, of_decide_eq_true this.2⟩

theorem latestForEntity_isSome (obs : List Row) (e : String × String)
    (h : ∃ r ∈ obs, entity_key r = e) :
    ∃ r, latestForEntity obs e = some r := by
  obtain ⟨r, hr, he⟩ := h
  have hne : obs.filter (fun r => decide (entity_key r = e)) ≠ [] := by
    intro hnil
    have : r ∈ obs.filter (fun r => decide (entity_key r = e)) :=
      List.mem_filter.mpr ⟨hr, decide_eq_true he⟩
    rw [hnil] at this
    cases this
  exact foldl_laterRow_nonempty _ hne

theorem filter_key_filterMap_len (F : String × String → Option Row)
    (hF : ∀ k r, F k = some r → entity_key r = k) :
    ∀ (ks : List (String × String)) (e : String × String), ks.Nodup → e ∈ ks →
      (∀ k ∈ ks, ∃ r, F k = some r) →
      ((ks.filterMap F).filter (fun r => decide (entity_key r = e))).length = 1 := by
  intro ks
  induction ks with
  | nil => intro e _ he; cases he
  | cons k ks ih =>
      intro e hnd he hsome
      have hndk := List.nodup_cons.mp hnd
      obtain ⟨rk, hrk⟩ := hsome k (List.mem_cons_self k ks)
      have hkey : entity_key rk = k := hF k rk hrk
      rcases List.mem_cons.mp he with rfl | he'
      · rw [List.filterMap_cons, hrk, List.filter_cons]
        have hd : decide (entity_key rk = e) = true := decide_eq_true hkey
        rw [hd]
        have hrest : (ks.filterMap F).filter (fun r => decide (entity_key r = e)) = [] := by
          apply List.filter_eq_nil_iff.mpr
          intro r hr
          obtain ⟨k', hk', hFk'⟩ := List.mem_filterMap.mp hr
          have hk'key : entity_key r = k' := hF k' r hFk'
          simp only [decide_eq_true_eq]
          intro heq
          have hk'e : k' = e := by rw [← hk'key, heq]
          exact hndk.1 (hk'e ▸ hk')
        simp [hrest]
      · have hne : k ≠ e := by
          intro hkeq
          exact hndk.1 (hkeq ▸ he')
        rw [List.filterMap_cons, hrk, List.filter_cons]
        have hd : decide (entity_key rk = e) = false := by
          simp only [decide_eq_false_iff_not]
          rw [hkey]
          exact hne
        rw [hd]
        exact ih e hndk.2 he' (fun k2 hk2 => hsome k2 (List.mem_cons_of_mem k hk2))

theorem filter_estado_classify (l : List Row) :
    l.filter (fun r => r.estado == "OP Emitida") =
      l.filter (fun r => decide (classify r.estado = ClassifiedStatus.Closed)) ∧
    l.filter (fun r => r.estado == "Pendiente OP") =
      l.filter (fun r => decide (classify r.estado = ClassifiedStatus.Pending)) ∧
    l.filter (fun r => r.estado == "Pipeline") =
      l.filter (fun r => decide (classify r.estado = ClassifiedStatus.InPipeline)) := by
  refine ⟨?_, ?_, ?_⟩ <;>
    · apply List.filter_congr
      intro r _
      by_cases h1 : r.estado = "OP Emitida" <;> by_cases h2 : r.estado = "Pendiente OP" <;>
        by_cases h3 : r.estado = "Pipeline" <;> simp_all [classify]

/-- C1 (counterexample): the classification performed by src/app.py lines
    110-112 is not case-insensitive substring matching: the misspelling
    "Fendiente" and the superstring "Pipeline comercial" match no bucket,
    contradicting the claimed classify("Fendiente") = Pending and
    classify("Pipeline comercial") = InPipeline. -/
theorem C1_counterexample :
    classify "Fendiente" = ClassifiedStatus.Unclassified ∧
    ClassifiedStatus.Unclassified ≠ ClassifiedStatus.Pending ∧
    classify "Pipeline comercial" = ClassifiedStatus.Unclassified ∧
    ClassifiedStatus.Unclassified ≠ ClassifiedStatus.InPipeline := by
  refine ⟨by decide, by decide, by decide, by decide⟩

/-- C1 (amended): status classification at src/app.py lines 110-112 is
    case-sensitive exact equality against the three labels (pairwise
    distinct, so at most one rule matches): "OP Emitida" maps to Closed and
    "Pendiente OP" to Pending, while "Fendiente", "Pipeline comercial",
    "op emitida" and any other unrecognized text fall to Unclassified, never
    a fifth value and never an error; the three KPI buckets are exactly the
    rows classified Closed, Pending and InPipeline. -/
theorem C1_classify_exact :
    (∀ s : String,
      classify s = ClassifiedStatus.Closed ∨ classify s = ClassifiedStatus.Pending ∨
      classify s = ClassifiedStatus.InPipeline ∨ classify s = ClassifiedStatus.Unclassified) ∧
    (∀ s : String,
      (classify s = ClassifiedStatus.Closed ↔ s = "OP Emitida") ∧
      (classify s = ClassifiedStatus.Pending ↔ s = "Pendiente OP") ∧
      (classify s = ClassifiedStatus.InPipeline ↔ s = "Pipeline")) ∧
    classify "OP Emitida" = ClassifiedStatus.Closed ∧
    classify "Pendiente OP" = ClassifiedStatus.Pending ∧
    classify "Fendiente" = ClassifiedStatus.Unclassified ∧
    classify "Pipeline comercial" = ClassifiedStatus.Unclassified ∧
    classify "op emitida" = ClassifiedStatus.Unclassified ∧
    classify "xyz" = ClassifiedStatus.Unclassified ∧
    (∀ (registros : List Row) (mesSel vendedorSel : String),
      total_op registros mesSel vendedorSel =
        sumValor ((df_actual registros mesSel vendedorSel).filter
          (fun r => decide (classify r.estado = ClassifiedStatus.Closed))) ∧
      total_pendiente registros mesSel vendedorSel =
        sumValor ((df_actual registros mesSel vendedorSel).filter
          (fun r => decide (classify r.estado = ClassifiedStatus.Pending))) ∧
      total_pipeline registros mesSel vendedorSel =
        sumValor ((df_actual registros mesSel vendedorSel).filter
          (fun r => decide (classify r.estado = ClassifiedStatus.InPipeline)))) := by
  refine ⟨?_, ?_, by decide, by decide, by decide, by decide, by decide, by decide, ?_⟩
  · intro s
    unfold classify
    by_cases h1 : s = "OP Emitida" <;> by_cases h2 : s = "Pendiente OP" <;>
      by_cases h3 : s = "Pipeline" <;> simp [h1, h2, h3]
  · intro s
    by_cases h1 : s = "OP Emitida" <;> by_cases h2 : s = "Pendiente OP" <;>
      by_cases h3 : s = "Pipeline" <;> simp_all [classify]
  · intro registros mesSel vendedorSel
    obtain ⟨ha, hb, hc⟩ := filter_estado_classify (df_actual registros mesSel vendedorSel)
    refine ⟨?_, ?_, ?_⟩
    · unfold total_op
      rw [ha]
    · unfold total_pendiente
      rw [hb]
    · unfold total_pipeline
      rw [hc]

/-- C3 (counterexample): at src/app.py line 44 the currency string
    "$1.234.567" does not normalize to the number 1234567 — pd.to_numeric
    coerces it to NaN and fillna turns it into 0. -/
theorem C3_counterexample :
    normalize_currency (CellValue.str "$1.234.567") = 0 ∧ (0 : ℚ) ≠ 1234567 := by
  refine ⟨by decide, by decide⟩

/-- C3 (amended): line 44 of src/app.py parses Valor with pd.to_numeric and
    strips no currency symbols or thousands separators, so "$1.234.567"
    (and "1.234.567") normalize to 0, not 1234567; the empty string
    normalizes to 0; an already-numeric cell is returned unchanged; an
    unparsable string normalizes to 0 rather than raising; a plain numeral
    string parses to its value. -/
theorem C3_normalize_currency_exact :
    (∀ q : ℚ, normalize_currency (CellValue.num q) = q) ∧
    normalize_currency (CellValue.str "") = 0 ∧
    normalize_currency (CellValue.str "$1.234.567") = 0 ∧
    normalize_currency (CellValue.str "1.234.567") = 0 ∧
    normalize_currency (CellValue.str "xyz") = 0 ∧
    normalize_currency (CellValue.str "1234567") = 1234567 :=
  ⟨fun q => rfl, by decide, by decide, by decide, by decide, by decide⟩

/-- C4: src/app.py line 43 calls pd.to_datetime without dayfirst, so the
    ambiguous date "05/03/2026" is read month-first as May 3, 2026 — not the
    March 5, 2026 that the spec's day-first default requires; the day-first
    reading only fires as a fallback when the first field exceeds 12. -/
theorem C4_normalize_date_monthfirst :
    normalize_date "05/03/2026" = some ⟨2026, 5, 3⟩ ∧
    (⟨2026, 5, 3⟩ : Date) ≠ ⟨2026, 3, 5⟩ ∧
    normalize_date "25/03/2026" = some ⟨2026, 3, 25⟩ := by
  refine ⟨by decide, by decide, by decide⟩

/-- C8: a month selection with zero observations yields the empty-state
    outcome of src/app.py lines 79-81, a constructor distinct both from the
    fatal-error outcome and from any rendered report. -/
theorem C8_empty_period (registros : List Row) (metas : List MetaRow)
    (mesSel vendedorSel : String) (h : df_mes registros mesSel = []) :
    run_report registros metas mesSel vendedorSel =
      ReportResult.empty_state ("No hay registros para el mes " ++ mesSel) ∧
    (∀ m1 m2 : String, ReportResult.empty_state m1 ≠ ReportResult.fatal m2) ∧
    (∀ (m1 : String) (a b c d e f : ℚ) (l : List Row),
      ReportResult.empty_state m1 ≠ ReportResult.report a b c d e f l) := by
  refine ⟨?_, fun m1 m2 => by simp, fun m1 a b c d e f l => by simp⟩
  simp [run_report, h]

theorem C8_empty_period_witness :
    run_report [fila_a] [] "Feb" "Todos" =
      ReportResult.empty_state ("No hay registros para el mes " ++ "Feb") ∧
    (∀ m1 m2 : String, ReportResult.empty_state m1 ≠ ReportResult.fatal m2) ∧
    (∀ (m1 : String) (a b c d e f : ℚ) (l : List Row),
      ReportResult.empty_state m1 ≠ ReportResult.report a b c d e f l) :=
  C8_empty_period [fila_a] [] "Feb" "Todos" (by decide)

/-- C5: under the LatestReportDateOnly policy (src/app.py lines 85-86), for
    a non-empty filtered observation set the reduced output is exactly the
    rows whose report date equals the maximum report date over the whole
    set: membership is characterized by that equality, the maximum is
    attained by some row, and it bounds every row. -/
theorem C5_latest_report_date (obs : List Row) (h : obs ≠ []) :
    (∀ r : Row, r ∈ reduce Policy.LatestReportDateOnly obs ↔
      r ∈ obs ∧ r.fecha = fecha_maxima obs) ∧
    (∃ r ∈ obs, r.fecha = fecha_maxima obs) ∧
    (∀ r ∈ obs, r.fecha ≤ fecha_maxima obs) := by
  refine ⟨?_, exists_fecha_maxima obs h, fun r hr => le_fecha_maxima obs r hr⟩
  intro r
  show r ∈ List.filter (fun r => r.fecha == fecha_maxima obs) obs ↔ _
  rw [List.mem_filter]
  simp

theorem C5_latest_report_date_witness :
    (∀ r : Row, r ∈ reduce Policy.LatestReportDateOnly [fila_a, fila_b] ↔
      r ∈ [fila_a, fila_b] ∧ r.fecha = fecha_maxima [fila_a, fila_b]) ∧
    (∃ r ∈ [fila_a, fila_b], r.fecha = fecha_maxima [fila_a, fila_b]) ∧
    (∀ r ∈ [fila_a, fila_b], r.fecha ≤ fecha_maxima [fila_a, fila_b]) :=
  C5_latest_report_date [fila_a, fila_b] (by decide)

/-- C2: the reducer accepts both policies (each policy's output draws only
    from its input), and under LatestPerEntity every entity key — the
    (client, salesperson) pair — present anywhere in the observations gets
    exactly one output row, whichever week that entity was last updated.
    The LatestPerEntity branch is modelled from the spec, as src/app.py
    hardcodes only the latest-report-date policy. -/
theorem C2_reduce_policies (obs : List Row) :
    (∀ (p : Policy) (r : Row), r ∈ reduce p obs → r ∈ obs) ∧
    (∀ e : String × String, (∃ r ∈ obs, entity_key r = e) →
      ((reduce Policy.LatestPerEntity obs).filter
        (fun r => decide (entity_key r = e))).length = 1) := by
  constructor
  · intro p r hr
    cases p with
    | LatestReportDateOnly => exact (List.mem_filter.mp hr).1
    | LatestPerEntity =>
        obtain ⟨k, hk, hFk⟩ := List.mem_filterMap.mp hr
        exact (latestForEntity_some obs k r hFk).1
  · intro e he
    show (((obs.map entity_key).dedup.filterMap (latestForEntity obs)).filter
      (fun r => decide (entity_key r = e))).length = 1
    apply filter_key_filterMap_len (latestForEntity obs)
      (fun k r hkr => (latestForEntity_some obs k r hkr).2)
    · exact (obs.map entity_key).nodup_dedup
    · obtain ⟨r, hr, hkey⟩ := he
      exact List.mem_dedup.mpr (List.mem_map.mpr ⟨r, hr, hkey⟩)
    · intro k hk
      obtain ⟨r, hr, hkey⟩ := List.mem_map.mp (List.mem_dedup.mp hk)
      exact latestForEntity_isSome obs k ⟨r, hr, hkey⟩

/-- C6: the attainment percentage equals total/meta*100 exactly when the
    target total is positive, and is 0 when the target total is 0 — in
    particular whenever the target table is empty — with no division ever
    applied to a zero target and no error path. -/
theorem C6_attainment (registros : List Row) (metas : List MetaRow)
    (mesSel vendedorSel : String) :
    (0 < meta_total metas mesSel vendedorSel →
      cumplimiento_calc registros metas mesSel vendedorSel =
        total_proyectado registros mesSel vendedorSel /
          meta_total metas mesSel vendedorSel * 100) ∧
    (meta_total metas mesSel vendedorSel = 0 →
      cumplimiento_calc registros metas mesSel vendedorSel = 0) ∧
    meta_total ([] : List MetaRow) mesSel vendedorSel = 0 ∧
    cumplimiento_calc registros ([] : List MetaRow) mesSel vendedorSel = 0 := by
  have hzero : meta_total ([] : List MetaRow) mesSel vendedorSel = 0 := by
    unfold meta_total
    split
    · simp
    · simp
  refine ⟨?_, ?_, hzero, ?_⟩
  · intro h
    unfold cumplimiento_calc cumplimiento
    rw [if_pos h]
  · intro h
    unfold cumplimiento_calc cumplimiento
    rw [h]
    simp
  · unfold cumplimiento_calc cumplimiento
    rw [hzero]
    simp

/-- C7: the target total of src/app.py lines 94-104 for a specific
    salesperson is the sum over exactly the Metas rows matching both the
    selected month and that salesperson — duplicate rows summed, and 0 when
    no such row exists — while for "Todos" it sums all the month's Metas
    rows. -/
theorem C7_meta_total (metas : List MetaRow) (mesSel vendedorSel : String) :
    (vendedorSel ≠ "Todos" →
      meta_total metas mesSel vendedorSel =
        ((metas.filter (fun m => m.mes == mesSel && m.vendedor == vendedorSel)).map
          MetaRow.metaTotal).sum ∧
      (metas.filter (fun m => m.mes == mesSel && m.vendedor == vendedorSel) = [] →
        meta_total metas mesSel vendedorSel = 0)) ∧
    meta_total metas mesSel "Todos" =
      ((metas.filter (fun m => m.mes == mesSel)).map MetaRow.metaTotal).sum := by
  constructor
  · intro hv
    have hb : (vendedorSel != "Todos") = true := bne_iff_ne.mpr hv
    constructor
    · unfold meta_total
      rw [hb]
      simp only [if_true]
      by_cases hmf :
          metas.filter (fun m => m.mes == mesSel && m.vendedor == vendedorSel) = []
      · simp [hmf]
      · simp [hmf]
    · intro hmf
      unfold meta_total
      rw [hb]
      simp [hmf]
  · unfold meta_total
    simp

/-- C9: because the salesperson filter of line 90 runs after the reduction
    to the month's global maximum report date (lines 85-86), a salesperson
    whose most recent observation predates that maximum ends up with zero
    snapshot rows and a zero projected total, even while having observations
    in the month. -/
theorem C9_vendor_filter_after_reduction (registros : List Row)
    (mesSel vendedorSel : String) (hv : vendedorSel ≠ "Todos")
    (hhas : ∃ r ∈ df_mes registros mesSel, r.vendedor = vendedorSel)
    (hold : ∀ r ∈ df_mes registros mesSel, r.vendedor = vendedorSel →
      r.fecha < fecha_maxima (df_mes registros mesSel)) :
    df_actual registros mesSel vendedorSel = [] ∧
    total_proyectado registros mesSel vendedorSel = 0 := by
  have hvb : (vendedorSel == "Todos") = false := by
    simp only [beq_eq_false_iff_ne, ne_eq]
    exact hv
  have hda : df_actual registros mesSel vendedorSel =
      (foto_reciente (df_mes registros mesSel)).filter
        (fun r => r.vendedor == vendedorSel) := by
    unfold df_actual
    rw [hvb]
    simp
  have hnil : (foto_reciente (df_mes registros mesSel)).filter
      (fun r => r.vendedor == vendedorSel) = [] := by
    apply List.filter_eq_nil_iff.mpr
    intro r hr
    have hmem := List.mem_filter.mp hr
    have hfe : r.fecha = fecha_maxima (df_mes registros mesSel) := by
      simpa using hmem.2
    simp only [beq_iff_eq]
    intro hveq
    have hlt := hold r hmem.1 hveq
    omega
  refine ⟨hda.trans hnil, ?_⟩
  unfold total_proyectado
  rw [hda, hnil]
  rfl

theorem C9_vendor_filter_witness :
    df_actual [fila_a, fila_b] "Ene" "Ana" = [] ∧
    total_proyectado [fila_a, fila_b] "Ene" "Ana" = 0 :=
  C9_vendor_filter_after_reduction [fila_a, fila_b] "Ene" "Ana"
    (by decide) (by decide) (by decide)

theorem sumValor_cons (x : Row) (l : List Row) :
    sumValor (x :: l) = x.valor + sumValor l := by
  unfold sumValor
  simp

theorem sumValor_nonneg (l : List Row) (h : ∀ r ∈ l, 0 ≤ r.valor) :
    0 ≤ sumValor l := by
  induction l with
  | nil => simp [sumValor]
  | cons x xs ih =>
      rw [sumValor_cons]
      have hx := h x (List.mem_cons_self x xs)
      have hxs := ih (fun r hr => h r (List.mem_cons_of_mem x hr))
      linarith

theorem sumValor_partition (l : List Row) :
    sumValor (l.filter (fun r => r.estado == "OP Emitida")) +
    sumValor (l.filter (fun r => r.estado == "Pendiente OP")) +
    sumValor (l.filter (fun r => r.estado == "Pipeline")) +
    sumValor (l.filter
      (fun r => decide (classify r.estado = ClassifiedStatus.Unclassified))) =
    sumValor l := by
  induction l with
  | nil => simp [sumValor]
  | cons x xs ih =>
      by_cases h1 : x.estado = "OP Emitida" <;> by_cases h2 : x.estado = "Pendiente OP" <;>
        by_cases h3 : x.estado = "Pipeline" <;>
        simp_all [List.filter_cons, classify, sumValor_cons] <;> linarith

/-- C10 (counterexample): with a single snapshot row whose status "xyz"
    matches no bucket and whose value is negative, the three bucket totals
    sum to 0 while the projected total is -1, so the claimed bound
    "bucket sum at most total_value" fails on src/app.py lines 107-112. -/
theorem C10_counterexample :
    ¬ (total_op [fila_neg] "Ene" "Todos" + total_pendiente [fila_neg] "Ene" "Todos" +
        total_pipeline [fila_neg] "Ene" "Todos" ≤
          total_proyectado [fila_neg] "Ene" "Todos") := by
  have hda : df_actual [fila_neg] "Ene" "Todos" = [fila_neg] := by decide
  have h1 : total_op [fila_neg] "Ene" "Todos" = 0 := by decide
  have h2 : total_pendiente [fila_neg] "Ene" "Todos" = 0 := by decide
  have h3 : total_pipeline [fila_neg] "Ene" "Todos" = 0 := by decide
  have h4 : total_proyectado [fila_neg] "Ene" "Todos" = -1 := by
    unfold total_proyectado
    rw [hda]
    simp [sumValor, fila_neg]
  rw [h1, h2, h3, h4]
  norm_num

/-- C10 (amended): the three per-status totals of src/app.py lines 110-112
    are sums over pairwise-disjoint sublists of the snapshot rows; together
    with the rows matching none of the three labels they decompose the
    projected total exactly, and when every snapshot value is nonnegative
    the three bucket totals sum to at most the projected total. Rows with an
    unrecognized status contribute to the projected total but to no
    bucket. -/
theorem C10_status_buckets (registros : List Row) (mesSel vendedorSel : String) :
    (∀ r : Row,
      ¬(r ∈ (df_actual registros mesSel vendedorSel).filter
          (fun r => r.estado == "OP Emitida") ∧
        r ∈ (df_actual registros mesSel vendedorSel).filter
          (fun r => r.estado == "Pendiente OP")) ∧
      ¬(r ∈ (df_actual registros mesSel vendedorSel).filter
          (fun r => r.estado == "OP Emitida") ∧
        r ∈ (df_actual registros mesSel vendedorSel).filter
          (fun r => r.estado == "Pipeline")) ∧
      ¬(r ∈ (df_actual registros mesSel vendedorSel).filter
          (fun r => r.estado == "Pendiente OP") ∧
        r ∈ (df_actual registros mesSel vendedorSel).filter
          (fun r => r.estado == "Pipeline"))) ∧
    total_op registros mesSel vendedorSel + total_pendiente registros mesSel vendedorSel +
      total_pipeline registros mesSel vendedorSel +
      sumValor ((df_actual registros mesSel vendedorSel).filter
        (fun r => decide (classify r.estado = ClassifiedStatus.Unclassified))) =
      total_proyectado registros mesSel vendedorSel ∧
    ((∀ r ∈ df_actual registros mesSel vendedorSel, 0 ≤ r.valor) →
      total_op registros mesSel vendedorSel + total_pendiente registros mesSel vendedorSel +
        total_pipeline registros mesSel vendedorSel ≤
        total_proyectado registros mesSel vendedorSel) := by
  have hpart := sumValor_partition (df_actual registros mesSel vendedorSel)
  refine ⟨?_, hpart, ?_⟩
  · intro r
    refine ⟨?_, ?_, ?_⟩ <;>
      · rintro ⟨hA, hB⟩
        have eA := (List.mem_filter.mp hA).2
        have eB := (List.mem_filter.mp hB).2
        simp only [beq_iff_eq] at eA eB
        rw [eA] at eB
        exact absurd eB (by decide)
  · intro h
    have hnn : 0 ≤ sumValor ((df_actual registros mesSel vendedorSel).filter
        (fun r => decide (classify r.estado = ClassifiedStatus.Unclassified))) := by
      apply sumValor_nonneg
      intro r hr
      exact h r (List.mem_filter.mp hr).1
    unfold total_op total_pendiente total_pipeline total_proyectado
    linarith [hpart, hnn]
